import Mathlib

/-!
Shallow embedding of the StepMania WAV/ADPCM sound reader
(src/stepmania/src/RageSoundReader_WAV.cpp) together with proofs about the
specification claims concerning it.

Modelling conventions:
- a file is its list of bytes and the stream cursor is an explicit natural
  number; `fread` of a fixed-size item succeeds exactly when the item fits
  before end of file (the source checks the item count returned by fread);
- C integer types are modelled as `Nat`/`Int`, with an explicit reduction
  mod 2^16 or 2^32 at each point where the C code truncates a value
  (casts to `Sint16`/`Uint16`/`Uint32`); C signed division (truncation
  towards zero) is `Int.tdiv`;
- `fseek(rw, target, SEEK_SET)` follows the C convention: the return value
  is 0 on success and -1 on failure, seeking to any nonnegative absolute
  offset of a regular file succeeds (seeking past end of file is allowed,
  a later read simply fails), and a failed fseek leaves the cursor alone;
- the `clamp` and `max` helpers of RageUtil (not part of the sources here)
  are ordinary clamping and maximum.
-/

namespace RageWAV

/-- A file is its list of bytes; reads reduce entries mod 256 so that the
model is total on arbitrary lists. -/
abbrev File := List Nat

/-- The "RIFF" magic as a little-endian 32-bit value (`#define riffID`). -/
def riffID : Nat := 0x46464952

/-- The "WAVE" magic as a little-endian 32-bit value (`#define waveID`). -/
def waveID : Nat := 0x45564157

/-- The id of the format chunk, "fmt " (`#define fmtID`). -/
def fmtID : Nat := 0x20746D66

/-- The id of the data chunk, "data" (`#define dataID`). -/
def dataID : Nat := 0x61746164

/-- Compression tag of uncompressed waveform data (`FMT_NORMAL`). -/
def FMT_NORMAL : Nat := 1

/-- Compression tag of ADPCM compressed waveform data (`FMT_ADPCM`). -/
def FMT_ADPCM : Nat := 2

/-- The byte of the file at index `i` (0 past the end; reduced mod 256). -/
def byteAt (f : File) (i : Nat) : Nat := (f.getD i 0) % 256

/-- `read_uint8`: read one byte at `pos`; fails at end of file. -/
def read_uint8 (f : File) (pos : Nat) : Option Nat :=
  if pos + 1 ≤ f.length then some (byteAt f pos) else none

/-- `read_le16`: read a little-endian 16-bit value at `pos`. -/
def read_le16 (f : File) (pos : Nat) : Option Nat :=
  if pos + 2 ≤ f.length then some (byteAt f pos + 256 * byteAt f (pos + 1)) else none

/-- `read_le32`: read a little-endian 32-bit value at `pos`. -/
def read_le32 (f : File) (pos : Nat) : Option Nat :=
  if pos + 4 ≤ f.length then
    some (byteAt f pos + 256 * byteAt f (pos + 1) + 65536 * byteAt f (pos + 2) +
          16777216 * byteAt f (pos + 3))
  else none

/-- Reinterpret a 16-bit pattern as a signed `Sint16` value. -/
def sint16ofBits (v : Nat) : Int := if v < 32768 then (v : Int) else (v : Int) - 65536

/-- Reinterpret a 32-bit pattern as a signed `Sint32` value. -/
def sint32ofBits (v : Nat) : Int :=
  if v < 2147483648 then (v : Int) else (v : Int) - 4294967296

/-- The C cast of an `int` value to `Sint16` (two's-complement wrap). -/
def sint16ofInt (x : Int) : Int := (x + 32768) % 65536 - 32768

/-- RageUtil `clamp(val, low, high)`. -/
def clamp (x lo hi : Int) : Int := if x < lo then lo else if hi < x then hi else x

/-- C `fseek(rw, target, SEEK_SET)` return value: 0 on success, -1 on
failure; on a regular file any nonnegative target succeeds. -/
def fseek_set (target : Int) : Int := if target < 0 then -1 else 0

/-- Parsed `fmt ` chunk fields (struct fmt_t, minus the derived members
kept directly on the stream structure below). -/
structure FmtT where
  wFormatTag : Nat
  wChannels : Nat
  SampleRate : Nat
  dwAvgBytesPerSec : Nat
  wBlockAlign : Nat
  wBitsPerSample : Nat
deriving DecidableEq

/-- The ADPCM extension of the `fmt ` chunk (struct adpcm_t input fields). -/
structure AdpcmExtT where
  cbSize : Nat
  wSamplesPerBlock : Nat
  wNumCoef : Nat
  aCoef : List (Int × Int)
deriving DecidableEq

/-- struct ADPCMBLOCKHEADER: per-channel decode state.  `iDelta` is a
`Uint16` field in the source, so it is a `Nat` below 2^16; the samples are
`Sint16` fields. -/
structure ADPCMBLOCKHEADER where
  bPredictor : Nat
  iDelta : Nat
  iSamp0 : Int
  iSamp1 : Int
deriving DecidableEq

/-- The mutable ADPCM decode state of a stream (struct adpcm_t). -/
structure AdpcmT where
  blockheaders : List ADPCMBLOCKHEADER
  aCoef : List (Int × Int)
  wSamplesPerBlock : Nat
  samples_left_in_block : Nat
  nibble_state : Nat
  nibble : Nat
deriving DecidableEq

/-- Conversion mode chosen at open time (enum in RageSoundReader_WAV.h). -/
inductive Conv where
  | CONV_NONE
  | CONV_8BIT_TO_16BIT
  | CONV_16LSB_TO_16SYS
deriving DecidableEq

/-- Result of opening (SoundReader_FileReader::OpenResult). -/
inductive OpenResult where
  | OPEN_OK
  | OPEN_NO_MATCH
  | OPEN_MATCH_BUT_FAIL
deriving DecidableEq

/-- The whole mutable state of one RageSoundReader_WAV stream: the
underlying file, the cursor, the parsed format and the decode state. -/
structure Wav where
  f : File
  pos : Nat
  wFormatTag : Nat
  wChannels : Nat
  SampleRate : Nat
  dwAvgBytesPerSec : Nat
  wBlockAlign : Nat
  wBitsPerSample : Nat
  data_starting_offset : Nat
  adpcm_sample_frame_size : Nat
  Channels : Nat
  BytesPerSample : Nat
  Input_Buffer_Ratio : Nat
  Conversion : Conv
  adpcm : AdpcmT
deriving DecidableEq

/-- `find_chunk(id, size)`: scan chunks from `pos`.  Reads an 8-byte
(id, size) header; on a match returns the declared size (as `Sint32`) and
the cursor at the chunk data; otherwise fails on a negative declared size,
and else advances the local `Uint32` position by 8 + size (no padding) and
seeks there.  The source loop is `while (1)`; it is bounded here by fuel
(each successful iteration needs 8 readable bytes and advances by at least
8, so `f.length + 1` fuel is enough whenever the `Uint32` position does
not wrap). -/
def find_chunk (f : File) (id : Nat) : Nat → Nat → Option (Int × Nat)
  | 0, _ => none
  | fuel + 1, pos =>
    match read_le32 f pos with
    | none => none
    | some idv =>
      match read_le32 f (pos + 4) with
      | none => none
      | some szv =>
        if idv = id then some (sint32ofBits szv, pos + 8)
        else if sint32ofBits szv < 0 then none
        else find_chunk f id fuel ((pos + 8 + szv) % 4294967296)

/-- The coefficient-pair reading loop at the end of `read_fmt_chunk`. -/
def read_coef_pairs (f : File) : Nat → Nat → Option (List (Int × Int) × Nat)
  | 0, pos => some ([], pos)
  | n + 1, pos =>
    match read_le16 f pos, read_le16 f (pos + 2) with
    | some a, some b =>
      match read_coef_pairs f n (pos + 4) with
      | some (rest, p) => some ((sint16ofBits a, sint16ofBits b) :: rest, p)
      | none => none
    | _, _ => none

/-- `read_fmt_chunk`: parse the fields of a located `fmt ` chunk at `pos`,
together with the ADPCM extension exactly when the compression tag is
`FMT_ADPCM`.  Returns the parsed fields and the cursor after them. -/
def read_fmt_chunk (f : File) (pos : Nat) :
    Option (FmtT × Option AdpcmExtT × Nat) :=
  match read_le16 f pos, read_le16 f (pos + 2), read_le32 f (pos + 4),
        read_le32 f (pos + 8), read_le16 f (pos + 12), read_le16 f (pos + 14) with
  | some tag, some ch, some rate, some abps, some ba, some bps =>
    if tag = FMT_ADPCM then
      match read_le16 f (pos + 16), read_le16 f (pos + 18), read_le16 f (pos + 20) with
      | some cb, some spb, some nc =>
        match read_coef_pairs f nc (pos + 22) with
        | some (coefs, p) =>
          some (⟨tag, ch, rate, abps, ba, bps⟩, some ⟨cb, spb, nc, coefs⟩, p)
        | none => none
      | _, _, _ => none
    else some (⟨tag, ch, rate, abps, ba, bps⟩, none, pos + 16)
  | _, _, _, _, _, _ => none

/-- The initial decode state after open: when the tag is ADPCM the struct
was zeroed by `read_fmt_chunk` and the coefficient table and
samples-per-block were filled in; `blockheaders` is allocated with one
(zeroed here) entry per channel. -/
def initAdpcm (ext : Option AdpcmExtT) (channels : Nat) : AdpcmT :=
  match ext with
  | some e => ⟨List.replicate channels ⟨0, 0, 0, 0⟩, e.aCoef, e.wSamplesPerBlock, 0, 0, 0⟩
  | none => ⟨[], [], 0, 0, 0, 0⟩

/-- `WAV_open_internal`: the whole open-time parse.  `none` means the
`ASSERT( Channels <= 2 )` fired (the process aborts); otherwise the open
result, together with the opened stream when the result is `OPEN_OK`.
The RIFF length dword after the first magic is read and thrown away (the
source ignores even a failure of that read, which only moves the cursor,
so after it the cursor is at `min 8 (length f)`). -/
def WAV_open_internal (f : File) : Option (OpenResult × Option Wav) :=
  match read_le32 f 0 with
  | none => some (OpenResult.OPEN_NO_MATCH, none)
  | some magic1 =>
    if magic1 ≠ riffID then some (OpenResult.OPEN_NO_MATCH, none) else
    let pos1 : Nat := if 8 ≤ f.length then 8 else f.length
    match read_le32 f pos1 with
    | none => some (OpenResult.OPEN_NO_MATCH, none)
    | some magic2 =>
      if magic2 ≠ waveID then some (OpenResult.OPEN_NO_MATCH, none) else
      match find_chunk f fmtID (f.length + 1) (pos1 + 4) with
      | none => some (OpenResult.OPEN_MATCH_BUT_FAIL, none)
      | some (fmtSize, fmtPos) =>
        let NextChunk : Int := fmtSize + fmtPos
        match read_fmt_chunk f fmtPos with
        | none => some (OpenResult.OPEN_MATCH_BUT_FAIL, none)
        | some (fmt, ext, afterFmt) =>
          let Channels := fmt.wChannels % 256
          if 2 < Channels then none else
          if fmt.wFormatTag ≠ FMT_NORMAL ∧ fmt.wFormatTag ≠ FMT_ADPCM then
            some (OpenResult.OPEN_NO_MATCH, none)
          else
            match (if fmt.wBitsPerSample = 4 ∧ fmt.wFormatTag = FMT_ADPCM then
                     some (Conv.CONV_NONE, 2)
                   else if fmt.wBitsPerSample = 8 then some (Conv.CONV_8BIT_TO_16BIT, 1)
                   else if fmt.wBitsPerSample = 16 then some (Conv.CONV_16LSB_TO_16SYS, 2)
                   else none : Option (Conv × Nat)) with
            | none => some (OpenResult.OPEN_MATCH_BUT_FAIL, none)
            | some (conv, bps) =>
              let ratio := (if conv = Conv.CONV_8BIT_TO_16BIT then 2 else 1) *
                           (if Channels = 1 then 2 else 1)
              let pos2 : Nat := if NextChunk < 0 then afterFmt else NextChunk.toNat
              match find_chunk f dataID (f.length + 1) pos2 with
              | none => some (OpenResult.OPEN_MATCH_BUT_FAIL, none)
              | some (_, dataPos) =>
                some (OpenResult.OPEN_OK, some
                  { f := f
                    pos := dataPos
                    wFormatTag := fmt.wFormatTag
                    wChannels := fmt.wChannels
                    SampleRate := fmt.SampleRate
                    dwAvgBytesPerSec := fmt.dwAvgBytesPerSec
                    wBlockAlign := fmt.wBlockAlign
                    wBitsPerSample := fmt.wBitsPerSample
                    data_starting_offset := dataPos
                    adpcm_sample_frame_size := bps * Channels
                    Channels := Channels
                    BytesPerSample := bps
                    Input_Buffer_Ratio := ratio
                    Conversion := conv
                    adpcm := initAdpcm ext Channels })

/-- The fixed 16-entry ADPCM adaption table (`AdaptionTable` in
`do_adpcm_nibble`). -/
def AdaptionTable : List Int :=
  [230, 230, 230, 230, 307, 409, 512, 614, 768, 614, 512, 409, 307, 230, 230, 230]

/-- `SMALLEST_ADPCM_DELTA`. -/
def SMALLEST_ADPCM_DELTA : Int := 16

/-- `do_adpcm_nibble(nib, header, lPredSamp)`: one nibble decode step on
one channel.  The new sample is the prediction plus `iDelta` times the
nibble taken as a 4-bit two's-complement value (the source tests
`nib & 0x08`), clamped to the 16-bit range; the step size is rescaled by
the adaption table, floored at `SMALLEST_ADPCM_DELTA`, cast to `Sint16`
and stored back into the `Uint16` field `iDelta` (net effect of the two
casts: reduction mod 2^16); the sample history is shifted. -/
def do_adpcm_nibble (nib : Nat) (h : ADPCMBLOCKHEADER) (lPredSamp : Int) :
    ADPCMBLOCKHEADER :=
  let lNewSamp : Int :=
    if nib.land 8 ≠ 0 then lPredSamp + (h.iDelta : Int) * ((nib : Int) - 16)
    else lPredSamp + (h.iDelta : Int) * (nib : Int)
  let lNewSamp := clamp lNewSamp (-32768) 32767
  let delta : Int := ((h.iDelta : Int) * AdaptionTable.getD nib 0).tdiv 256
  let delta := max delta SMALLEST_ADPCM_DELTA
  { h with iDelta := ((sint16ofInt delta) % 65536).toNat
           iSamp1 := h.iSamp0
           iSamp0 := sint16ofInt lNewSamp }

/-- The per-channel body of `decode_adpcm_sample_frame`: the linear
prediction from the two most recent samples and the coefficient pair
selected by the block predictor index, then one `do_adpcm_nibble` step.
An out-of-range predictor index makes the C code read past the
coefficient table; it is modelled as the pair (0, 0). -/
def adpcm_decode_step (aCoef : List (Int × Int)) (nib : Nat)
    (h : ADPCMBLOCKHEADER) : ADPCMBLOCKHEADER :=
  let c := aCoef.getD h.bPredictor (0, 0)
  let lPredSamp := (h.iSamp0 * c.1 + h.iSamp1 * c.2).tdiv 256
  do_adpcm_nibble nib h lPredSamp

/-- The channel loop of `decode_adpcm_sample_frame`: half-nibble state,
the byte most recently read, and the cursor are threaded through the
channels; in state 0 a fresh byte is read and its high nibble consumed,
in state 1 the low nibble of the stored byte is consumed.  A short read
aborts the whole frame (`none`). -/
def decode_channels (f : File) (aCoef : List (Int × Int)) :
    List ADPCMBLOCKHEADER → Nat → Nat → Nat →
    Option (List ADPCMBLOCKHEADER × Nat × Nat × Nat)
  | [], st, nib, pos => some ([], st, nib, pos)
  | h :: rest, st, nib, pos =>
    let c := aCoef.getD h.bPredictor (0, 0)
    let lPredSamp := (h.iSamp0 * c.1 + h.iSamp1 * c.2).tdiv 256
    if st = 0 then
      match read_uint8 f pos with
      | none => none
      | some nib2 =>
        match decode_channels f aCoef rest 1 nib2 (pos + 1) with
        | none => none
        | some (hs, st3, nib3, p3) =>
          some (do_adpcm_nibble (nib2 / 16) h lPredSamp :: hs, st3, nib3, p3)
    else
      match decode_channels f aCoef rest 0 nib pos with
      | none => none
      | some (hs, st3, nib3, p3) =>
        some (do_adpcm_nibble (nib % 16) h lPredSamp :: hs, st3, nib3, p3)

/-- `decode_adpcm_sample_frame` on the whole stream state. -/
def decode_adpcm_sample_frame (s : Wav) : Option Wav :=
  match decode_channels s.f s.adpcm.aCoef s.adpcm.blockheaders
      s.adpcm.nibble_state s.adpcm.nibble s.pos with
  | none => none
  | some (hs, st, nib, pos) =>
    some { s with pos := pos,
                  adpcm := { s.adpcm with blockheaders := hs,
                                          nibble_state := st, nibble := nib } }

/-- Read `n` single bytes (the per-channel predictor-index loop). -/
def read_u8_list (f : File) : Nat → Nat → Option (List Nat × Nat)
  | 0, pos => some ([], pos)
  | n + 1, pos =>
    match read_uint8 f pos with
    | none => none
    | some b =>
      match read_u8_list f n (pos + 1) with
      | none => none
      | some (bs, p) => some (b :: bs, p)

/-- Read `n` little-endian 16-bit values (the per-channel loops for the
deltas and the two seed samples). -/
def read_le16_list (f : File) : Nat → Nat → Option (List Nat × Nat)
  | 0, pos => some ([], pos)
  | n + 1, pos =>
    match read_le16 f pos with
    | none => none
    | some v =>
      match read_le16_list f n (pos + 2) with
      | none => none
      | some (vs, p) => some (v :: vs, p)

/-- `read_adpcm_block_headers(out)`: read the per-block header (all
predictor bytes, then all deltas, then all first seeds, then all second
seeds, channel-indexed), reset `samples_left_in_block` to the
samples-per-block of `out` and clear the half-nibble parity. -/
def read_adpcm_block_headers (f : File) (wChannels : Nat) (a : AdpcmT)
    (pos : Nat) : Option (AdpcmT × Nat) :=
  match read_u8_list f wChannels pos with
  | none => none
  | some (preds, p1) =>
    match read_le16_list f wChannels p1 with
    | none => none
    | some (deltas, p2) =>
      match read_le16_list f wChannels p2 with
      | none => none
      | some (s0s, p3) =>
        match read_le16_list f wChannels p3 with
        | none => none
        | some (s1s, p4) =>
          let headers := (List.range wChannels).map (fun i =>
            ADPCMBLOCKHEADER.mk (preds.getD i 0) (deltas.getD i 0)
              (sint16ofBits (s0s.getD i 0)) (sint16ofBits (s1s.getD i 0)))
          some ({ a with blockheaders := headers,
                         samples_left_in_block := a.wSamplesPerBlock,
                         nibble_state := 0 }, p4)

/-- Two bytes, little endian, of a 16-bit sample written to the caller
buffer. -/
def bytesOfSint16 (x : Int) : List Nat :=
  [(x % 65536).toNat % 256, (x % 65536).toNat / 256]

/-- `put_adpcm_sample_frame(buf, frame)`: one 16-bit sample per channel. -/
def put_adpcm_sample_frame (headers : List ADPCMBLOCKHEADER) (frame : Nat) :
    List Nat :=
  headers.flatMap (fun h => bytesOfSint16 (if frame = 0 then h.iSamp0 else h.iSamp1))

/-- The `while (bw < len)` loop of `read_sample_fmt_adpcm`, producing the
bytes written to the buffer and the final stream state.  The loop is
bounded by fuel; every iteration adds `adpcm_sample_frame_size` to `bw`,
so `len + 1` fuel is enough whenever the frame size is at least 1 (with a
frame size of 0 the C loop never terminates). -/
def adpcm_read_loop (fsz wChannels : Nat) :
    Nat → Wav → Nat → Nat → List Nat → (List Nat × Wav)
  | 0, s, _, _, out => (out, s)
  | fuel + 1, s, bw, len, out =>
    if len ≤ bw then (out, s) else
    match s.adpcm.samples_left_in_block with
    | 0 =>
      match read_adpcm_block_headers s.f wChannels s.adpcm s.pos with
      | none => (out, s)
      | some (a2, p2) =>
        let s2 : Wav := { s with
          pos := p2
          adpcm := { a2 with samples_left_in_block := a2.samples_left_in_block - 1 } }
        adpcm_read_loop fsz wChannels fuel s2 (bw + fsz) len
          (out ++ put_adpcm_sample_frame a2.blockheaders 1)
    | 1 =>
      let s2 : Wav := { s with
        adpcm := { s.adpcm with samples_left_in_block := 0 } }
      adpcm_read_loop fsz wChannels fuel s2 (bw + fsz) len
        (out ++ put_adpcm_sample_frame s.adpcm.blockheaders 0)
    | n + 2 =>
      let out2 := out ++ put_adpcm_sample_frame s.adpcm.blockheaders 0
      let s2 : Wav := { s with
        adpcm := { s.adpcm with samples_left_in_block := n + 1 } }
      match decode_adpcm_sample_frame s2 with
      | none => (out2, s2)
      | some s3 => adpcm_read_loop fsz wChannels fuel s3 (bw + fsz) len out2

/-- `read_sample_fmt_adpcm(buf, len)`. -/
def read_sample_fmt_adpcm (s : Wav) (len : Nat) : List Nat × Wav :=
  adpcm_read_loop s.adpcm_sample_frame_size s.wChannels (len + 1) s 0 len []

/-- `read_sample_fmt_normal(buf, len)`: plain fread of up to `len` bytes
from the cursor; returns the bytes obtained and the new cursor. -/
def read_sample_fmt_normal (f : File) (pos len : Nat) : List Nat × Nat :=
  let n := min len (f.length - pos)
  ((f.drop pos).take n, pos + n)

/-- The signed-char reading of a raw byte (`buf` is a `char *`; on the
targeted platforms char is signed, and the final result below is the
same either way because of the 16-bit truncation). -/
def charOfByte (b : Nat) : Int := if b < 128 then (b : Int) else (b : Int) - 256

/-- One sample of the widening loop `tmpbuf[s] = (Sint16(buf[s])-128) << 8`
(the shift of a possibly negative int is multiplication by 256 on the
targeted platforms, and the assignment truncates to 16 bits). -/
def widen8to16 (b : Nat) : Int := sint16ofInt ((charOfByte b - 128) * 256)

/-- The bytes a widened sample occupies in the buffer. -/
def widenBytes (b : Nat) : List Nat := bytesOfSint16 (widen8to16 b)

/-- Group a buffer into consecutive 16-bit samples (pairs of bytes). -/
def pairUp : List Nat → List (Nat × Nat)
  | a :: b :: rest => (a, b) :: pairUp rest
  | _ => []

/-- The mono-to-stereo loop `tmpbuf[s*2] = tmpbuf[s*2+1] = in[s]`: each
16-bit sample of the buffer is written twice. -/
def monoDup (l : List Nat) : List Nat :=
  (pairUp l).flatMap (fun p => [p.1, p.2, p.1, p.2])

/-- The conversion tail of `Read`: byte-order normalization is the
identity on a little-endian host (the swap loop is compiled out), then
8-to-16-bit widening when active, then mono duplication when the stream
has one channel. -/
def convertStage (conv : Conv) (channels : Nat) (raw : List Nat) : List Nat :=
  let b1 := if conv = Conv.CONV_8BIT_TO_16BIT then raw.flatMap widenBytes else raw
  if channels = 1 then monoDup b1 else b1

/-- `Read(buf, len)`: the entry assertion demands that `len` be a multiple
of `Input_Buffer_Ratio` (`none` models the assertion firing, as does the
`ASSERT(0)` default of the format dispatch); the underlying reader is
asked for `len / Input_Buffer_Ratio` bytes and the conversions are applied
to what it produced. -/
def Read (s : Wav) (len : Nat) : Option (List Nat × Wav) :=
  if len % s.Input_Buffer_Ratio ≠ 0 then none else
  let ActualLen := len / s.Input_Buffer_Ratio
  if s.wFormatTag = FMT_NORMAL then
    let r := read_sample_fmt_normal s.f s.pos ActualLen
    some (convertStage s.Conversion s.Channels r.1, { s with pos := r.2 })
  else if s.wFormatTag = FMT_ADPCM then
    let r := read_sample_fmt_adpcm s ActualLen
    some (convertStage s.Conversion s.Channels r.1, r.2)
  else none

/-- `seek_sample_fmt_normal(ms)`.  The first line of the source converts
`ms` to a byte offset with `ConvertMsToBytePos`, which computes in 32-bit
floating point; that value is taken here as the parameter `offset` (the
outcome below does not depend on it).  The source then seeks to
`data_starting_offset + offset` and compares the value returned by fseek
against that absolute position: `if (rc != pos) return -1; return ms;`. -/
def seek_sample_fmt_normal (s : Wav) (offset : Nat) (ms : Int) : Int × Wav :=
  let pos : Int := (s.data_starting_offset : Int) + (offset : Int)
  let rc := fseek_set pos
  let s2 : Wav := if rc = -1 then s else { s with pos := pos.toNat }
  if rc ≠ pos then (-1, s2) else (ms, s2)

/-- The decode-and-drop loop at the end of `seek_sample_fmt_adpcm`
(`while (rc > 0)`).  The boolean of the result records whether an error
was reported (`SetError` called).  Fuel bounds the loop: `rc` shrinks by
the frame size each iteration, so `rc.toNat + 1` fuel is enough whenever
the frame size is at least 1. -/
def seek_drop_loop (fsz : Nat) (ms : Int) :
    Nat → Wav → Int → (Int × Wav × Bool)
  | 0, s, _ => (ms, s, false)
  | fuel + 1, s, rc =>
    if rc ≤ 0 then (ms, s, false)
    else
      match decode_adpcm_sample_frame s with
      | none =>
        (0, { s with pos := 0,
                     adpcm := { s.adpcm with samples_left_in_block := 0 } }, true)
      | some s2 =>
        let s3 : Wav := { s2 with
          adpcm := { s2.adpcm with
            samples_left_in_block := s2.adpcm.samples_left_in_block - 1 } }
        seek_drop_loop fsz ms fuel s3 (rc - (fsz : Int))

/-- `seek_sample_fmt_adpcm(ms)`.  As for the uncompressed path, `offset`
stands for the float-computed `ConvertMsToBytePos` result.  The source
seeks to the start of the containing block and bails out with
`SetError("end of file"); return 0;` whenever the value returned by fseek
differs from the absolute target position; otherwise it re-reads the
block header and decodes up to the intra-block remainder.  The boolean of
the result records whether an error was reported. -/
def seek_sample_fmt_adpcm (s : Wav) (offset : Nat) (ms : Int) : Int × Wav × Bool :=
  let bpb : Nat := s.adpcm.wSamplesPerBlock * s.adpcm_sample_frame_size
  let skipsize : Nat := (offset / bpb) * s.wBlockAlign
  let pos : Int := (skipsize : Int) + (s.data_starting_offset : Int)
  let rc := fseek_set pos
  let s2 : Wav := if rc = -1 then s else { s with pos := pos.toNat }
  if rc = -1 then (0, s2, true)
  else if rc ≠ pos then (0, s2, true)
  else
    let rc2 : Int := ((offset % bpb : Nat) : Int)
    match read_adpcm_block_headers s2.f s2.wChannels s2.adpcm s2.pos with
    | none =>
      (0, { s2 with pos := 0,
                    adpcm := { s2.adpcm with samples_left_in_block := 0 } }, true)
    | some (a2, p2) =>
      let s3 : Wav := { s2 with
        pos := p2
        adpcm := { a2 with samples_left_in_block := a2.samples_left_in_block - 1 } }
      seek_drop_loop s.adpcm_sample_frame_size ms
        ((rc2 - (s.adpcm_sample_frame_size : Int)).toNat + 1) s3
        (rc2 - (s.adpcm_sample_frame_size : Int))

/-- `SetPosition(ms)`: dispatch on the compression tag; `none` models the
`ASSERT(0)` of an impossible tag.  The boolean records whether `SetError`
was called. -/
def SetPosition (s : Wav) (offset : Nat) (ms : Int) : Option (Int × Wav × Bool) :=
  if s.wFormatTag = FMT_NORMAL then
    let r := seek_sample_fmt_normal s offset ms
    some (r.1, r.2, false)
  else if s.wFormatTag = FMT_ADPCM then some (seek_sample_fmt_adpcm s offset ms)
  else none

/-- `get_length_fmt_normal`: seek to the end, read the size back with
ftell and convert `size - data_starting_offset` to milliseconds.
`ConvertBytePosToMs` computes in 32-bit floating point; it is taken here
as the parameter `cvt` (applied to its `Uint32` argument).  The result is
the returned value and the cursor after the call. -/
def get_length_fmt_normal (cvt : Nat → Int) (s : Wav) : Int × Nat :=
  let offset : Int := (s.f.length : Int)
  (cvt ((offset - (s.data_starting_offset : Int)) % 4294967296).toNat, s.f.length)

/-- `get_length_fmt_adpcm`: the source stores the value returned by
`fseek(rw, 0, SEEK_END)` as `offset` — that value is 0 on success, not
the file size (fseek is not SDL_RWseek) — subtracts the data start,
derives a (negative) block number, seeks to the corresponding target when
possible, and decodes a disposable copy of that block header, never
touching the live decode state.  The struct `tmp_adpcm` of the source is
declared without an initializer; it is modelled as a copy of the live
state (only its cursor movement and its untouched live state matter to
the claims below). -/
def get_length_fmt_adpcm (cvt : Nat → Int) (s : Wav) : Int × Nat :=
  let pos1 : Nat := s.f.length
  let offset : Int := 0 - (s.data_starting_offset : Int)
  let bpb : Int := ((s.adpcm.wSamplesPerBlock * s.adpcm_sample_frame_size : Nat) : Int)
  let blockno : Int := offset.tdiv (s.wBlockAlign : Int)
  let byteno : Int := blockno * bpb
  let target : Int := blockno * (s.wBlockAlign : Int) + (s.data_starting_offset : Int)
  let pos2 : Nat := if fseek_set target = -1 then pos1 else target.toNat
  match read_adpcm_block_headers s.f s.wChannels s.adpcm pos2 with
  | none => (0, pos2)
  | some (tmp, pos3) =>
    (cvt (byteno % 4294967296).toNat +
     cvt ((tmp.samples_left_in_block * s.adpcm_sample_frame_size) % 4294967296), pos3)

/-- `GetLength()`: record the cursor, run the per-format length query
(which moves the cursor), and seek back to the recorded position before
returning (bailing out with -1 if that final fseek fails). -/
def GetLength (cvt : Nat → Int) (s : Wav) : Int × Wav :=
  let origpos := s.pos
  let r : Int × Nat :=
    if s.wFormatTag = FMT_NORMAL then get_length_fmt_normal cvt s
    else if s.wFormatTag = FMT_ADPCM then get_length_fmt_adpcm cvt s
    else (0, s.pos)
  let rc := fseek_set (origpos : Int)
  if rc = -1 then (-1, { s with pos := r.2 }) else (r.1, { s with pos := origpos })

/-- The chunk scanner as claim C4 describes it (a comparison definition
written from the words of the claim, not from the source): identical to
`find_chunk` except that a non-matching chunk of declared size `size` is
skipped by 8 + `size` rounded up to an even boundary. -/
def find_chunk_padded (f : File) (id : Nat) : Nat → Nat → Option (Int × Nat)
  | 0, _ => none
  | fuel + 1, pos =>
    match read_le32 f pos with
    | none => none
    | some idv =>
      match read_le32 f (pos + 4) with
      | none => none
      | some szv =>
        if idv = id then some (sint32ofBits szv, pos + 8)
        else if sint32ofBits szv < 0 then none
        else find_chunk_padded f id fuel ((pos + 8 + szv + szv % 2) % 4294967296)

/-- A minimal well-formed mono 8-bit PCM WAV file: RIFF/WAVE header, a
16-byte `fmt ` chunk (tag 1, 1 channel, 1000 Hz, 8 bits) and a 4-byte
data chunk. -/
def wavPCM8 : File :=
  [82, 73, 70, 70, 0, 0, 0, 0, 87, 65, 86, 69, 102, 109, 116, 32, 16, 0, 0, 0,
   1, 0, 1, 0, 232, 3, 0, 0, 0, 0, 0, 0, 1, 0, 8, 0,
   100, 97, 116, 97, 4, 0, 0, 0, 1, 2, 3, 4]

/-- As `wavPCM8` but with a single data byte. -/
def wavPCM8tiny : File :=
  [82, 73, 70, 70, 0, 0, 0, 0, 87, 65, 86, 69, 102, 109, 116, 32, 16, 0, 0, 0,
   1, 0, 1, 0, 232, 3, 0, 0, 0, 0, 0, 0, 1, 0, 8, 0,
   100, 97, 116, 97, 1, 0, 0, 0, 9]

/-- As `wavPCM8` but declaring 24 bits per sample. -/
def wavBits24 : File :=
  [82, 73, 70, 70, 0, 0, 0, 0, 87, 65, 86, 69, 102, 109, 116, 32, 16, 0, 0, 0,
   1, 0, 1, 0, 232, 3, 0, 0, 0, 0, 0, 0, 1, 0, 24, 0,
   100, 97, 116, 97, 4, 0, 0, 0, 1, 2, 3, 4]

/-- As `wavPCM8` but with compression tag 85 (MP3) and 16 bits per
sample: a well-formed RIFF/WAVE container with an unsupported tag. -/
def wavTag85 : File :=
  [82, 73, 70, 70, 0, 0, 0, 0, 87, 65, 86, 69, 102, 109, 116, 32, 16, 0, 0, 0,
   85, 0, 1, 0, 232, 3, 0, 0, 0, 0, 0, 0, 1, 0, 16, 0,
   100, 97, 116, 97, 4, 0, 0, 0, 1, 2, 3, 4]

/-- A chunk list whose first chunk ("AAAA") declares the odd size 1, with
the "data" chunk header following unpadded at offset 9. -/
def oddChunkFile : File :=
  [65, 65, 65, 65, 1, 0, 0, 0, 238, 100, 97, 116, 97, 2, 0, 0, 0, 7, 7]

/-- The stream state `WAV_open_internal` produces for `wavPCM8`. -/
def wavPCM8_state : Wav :=
  ⟨wavPCM8, 44, 1, 1, 1000, 0, 1, 8, 44, 1, 1, 1, 4,
   Conv.CONV_8BIT_TO_16BIT, ⟨[], [], 0, 0, 0, 0⟩⟩

/-- The stream state `WAV_open_internal` produces for `wavPCM8tiny`. -/
def wavPCM8tiny_state : Wav :=
  ⟨wavPCM8tiny, 44, 1, 1, 1000, 0, 1, 8, 44, 1, 1, 1, 4,
   Conv.CONV_8BIT_TO_16BIT, ⟨[], [], 0, 0, 0, 0⟩⟩

/-- The fields `read_fmt_chunk` parses out of `wavBits24`. -/
def fmt24 : FmtT := ⟨1, 1, 1000, 0, 1, 24⟩

/-- The fields `read_fmt_chunk` parses out of `wavTag85`. -/
def fmt85 : FmtT := ⟨85, 1, 1000, 0, 1, 16⟩

/-! Helper lemmas. -/

lemma tdiv_natCast (a b : Nat) : ((a : Int)).tdiv (b : Int) = ((a / b : Nat) : Int) := rfl

lemma sint16ofInt_clamp (x : Int) :
    sint16ofInt (clamp x (-32768) 32767) = clamp x (-32768) 32767 := by
  unfold sint16ofInt clamp
  split_ifs <;> omega

lemma delta_store_eq (d : Nat) (t : Int) (ht : 0 ≤ t) :
    (sint16ofInt (max (((d : Int) * t).tdiv 256) 16) % 65536).toNat
      = max (d * t.toNat / 256) 16 % 65536 := by
  obtain ⟨n, rfl⟩ := Int.eq_ofNat_of_zero_le ht
  have h1 : ((d : Int) * (n : Int)).tdiv 256 = ((d * n / 256 : Nat) : Int) := by
    rw [show ((d : Int) * (n : Int)) = ((d * n : Nat) : Int) by push_cast; ring]
    rfl
  rw [h1, show ((16 : Int) = ((16 : Nat) : Int)) by norm_num, ← Nat.cast_max,
      show ((n : Int)).toNat = n by simp]
  generalize max (d * n / 256) 16 = k
  unfold sint16ofInt
  omega

lemma land8_eq (nib : Nat) (hn : nib < 16) :
    nib.land 8 = if nib < 8 then 0 else 8 := by
  interval_cases nib <;> decide

lemma adaption_nonneg (n : Nat) : 0 ≤ AdaptionTable.getD n 0 := by
  by_cases hlt : n < 16
  · interval_cases n <;> decide
  · rw [List.getD_eq_default]
    exact le_of_not_lt (by simpa [AdaptionTable] using hlt)

lemma do_adpcm_nibble_eq (nib : Nat) (hn : nib < 16) (h : ADPCMBLOCKHEADER) (p : Int) :
    do_adpcm_nibble nib h p =
      ⟨h.bPredictor,
       max (h.iDelta * (AdaptionTable.getD nib 0).toNat / 256) 16 % 65536,
       sint16ofInt (clamp (p + (h.iDelta : Int) *
         (if nib < 8 then (nib : Int) else (nib : Int) - 16)) (-32768) 32767),
       h.iSamp0⟩ := by
  have hd := delta_store_eq h.iDelta (AdaptionTable.getD nib 0) (adaption_nonneg nib)
  simp only [do_adpcm_nibble, SMALLEST_ADPCM_DELTA, land8_eq nib hn]
  by_cases h8 : nib < 8 <;> simp [h8] <;> simpa [List.getD] using hd

lemma flatMap_widenBytes_length : ∀ l : List Nat, (l.flatMap widenBytes).length = 2 * l.length
  | [] => rfl
  | a :: rest => by
    simp [List.flatMap_cons, flatMap_widenBytes_length rest, widenBytes, bytesOfSint16]
    ring

lemma pairUp_length : ∀ l : List Nat, (pairUp l).length = l.length / 2
  | [] => rfl
  | [_] => by simp [pairUp]
  | _ :: _ :: rest => by
    simp [pairUp, pairUp_length rest]
    omega

lemma flatMapQuad_length : ∀ l : List (Nat × Nat),
    (l.flatMap fun p => [p.1, p.2, p.1, p.2]).length = 4 * l.length
  | [] => rfl
  | _ :: rest => by
    simp [List.flatMap_cons, flatMapQuad_length rest]
    ring

lemma monoDup_length (l : List Nat) : (monoDup l).length = 4 * (l.length / 2) := by
  unfold monoDup
  rw [flatMapQuad_length, pairUp_length]

/-! The claims. -/

/-- C2, amended: for every channel state and nibble `n < 16`, one ADPCM
decode step yields `new = clamp(((sample0*coef1 + sample1*coef2) / 256) +
delta * s(n), -32768, 32767)` with `s(n) = n` for `n < 8` and `n - 16`
otherwise (`/` is C truncating division), shifts the sample history, and
stores `max(delta * AdaptionTable[n] / 256, 16)` reduced mod 2^16 into
the 16-bit delta field (the claimed value itself whenever it is below
65536; the reduction comes from the `Sint16` cast into the `Uint16`
field). -/
theorem c2_adpcm_decode_step_eq (aCoef : List (Int × Int)) (h : ADPCMBLOCKHEADER)
    (nib : Nat) (hn : nib < 16) :
    adpcm_decode_step aCoef nib h =
      ⟨h.bPredictor,
       max (h.iDelta * (AdaptionTable.getD nib 0).toNat / 256) 16 % 65536,
       clamp (((h.iSamp0 * (aCoef.getD h.bPredictor (0, 0)).1 +
                h.iSamp1 * (aCoef.getD h.bPredictor (0, 0)).2).tdiv 256) +
              (h.iDelta : Int) * (if nib < 8 then (nib : Int) else (nib : Int) - 16))
         (-32768) 32767,
       h.iSamp0⟩ := by
  simp only [adpcm_decode_step]
  rw [do_adpcm_nibble_eq nib hn, sint16ofInt_clamp]

/-- C2 counterexample: at delta 21846 and nibble 8 the claim says the
running delta becomes `max(21846 * 768 / 256, 16) = 65538`; the code
stores 2 (65538 mod 2^16) in the 16-bit field. -/
theorem c2_counterexample :
    (adpcm_decode_step [((256 : Int), (0 : Int))] 8 ⟨0, 21846, 0, 0⟩).iDelta = 2 ∧
    max (21846 * 768 / 256) 16 = 65538 ∧
    (adpcm_decode_step [((256 : Int), (0 : Int))] 8 ⟨0, 21846, 0, 0⟩).iDelta ≠
      max (21846 * 768 / 256) 16 := by
  decide

/-- Witness for C2: the amended step formula evaluated at the
counterexample state. -/
theorem c2_witness :
    (8 : Nat) < 16 ∧
    adpcm_decode_step [((256 : Int), (0 : Int))] 8 ⟨0, 21846, 0, 0⟩ = ⟨0, 2, -32768, 0⟩ :=
  ⟨by decide, by
    rw [c2_adpcm_decode_step_eq [((256 : Int), (0 : Int))] ⟨0, 21846, 0, 0⟩ 8 (by decide)]
    decide⟩

/-- C6: for every input byte `b` (0..255), the widening conversion of the
read pipeline emits the 16-bit signed sample `(b - 128) * 256`, reading
`b` as unsigned; the source reads the byte through a (signed) `char` and
truncates the shifted value to 16 bits, which yields exactly this
value. -/
theorem c6_widen8to16_eq (b : Nat) (hb : b < 256) :
    widen8to16 b = ((b : Int) - 128) * 256 := by
  unfold widen8to16 charOfByte sint16ofInt
  split_ifs <;> omega

/-- Witness for C6: byte 255 widens to +32512, not a negative value. -/
theorem c6_witness :
    (255 : Nat) < 256 ∧ widen8to16 255 = ((255 : Int) - 128) * 256 ∧
    widen8to16 255 = 32512 :=
  ⟨by decide, c6_widen8to16_eq 255 (by decide), by decide⟩

/-- C5: a length query records the cursor, moves it while measuring, and
restores it before returning, on the success and the error paths alike
(the disposable header decode of the ADPCM path never touches the live
decode state); hence the whole stream state is unchanged and any
subsequent read behaves exactly as if the length query had not
happened. -/
theorem c5_getlength_preserves_state (cvt : Nat → Int) (s : Wav) :
    (GetLength cvt s).2 = s ∧ ∀ len, Read (GetLength cvt s).2 len = Read s len := by
  have h0 : fseek_set ((s.pos : Nat) : Int) = 0 := by
    unfold fseek_set
    rw [if_neg (show ¬ ((s.pos : Int) < 0) by omega)]
  have h : (GetLength cvt s).2 = s := by
    simp only [GetLength, h0]
    norm_num
  exact ⟨h, fun len => by rw [h]⟩

/-- C1 is a code bug: both seek paths compare the value returned by fseek
(0 on success) against the absolute target position, in the convention of
the SDL_RWseek function this code was ported from.  Since the data region
never starts at file offset 0, the comparison fails for every millisecond
position: the uncompressed path returns -1 instead of `ms`, and the ADPCM
path reports the error "end of file" and returns 0.  `offset` is the
float-translated byte offset of `ms`; the outcome is the same for every
value of it. -/
theorem c1_seek_always_fails (s : Wav) (offset : Nat) (ms : Int)
    (hdso : 0 < s.data_starting_offset) (hms : 0 ≤ ms) :
    (seek_sample_fmt_normal s offset ms).1 = -1 ∧
    (seek_sample_fmt_normal s offset ms).1 ≠ ms ∧
    (seek_sample_fmt_adpcm s offset ms).1 = 0 ∧
    (seek_sample_fmt_adpcm s offset ms).2.2 = true := by
  have h0 : fseek_set ((s.data_starting_offset : Int) + (offset : Int)) = 0 := by
    unfold fseek_set
    rw [if_neg (show ¬ ((s.data_starting_offset : Int) + (offset : Int) < 0) by omega)]
  have hne : (0 : Int) ≠ (s.data_starting_offset : Int) + (offset : Int) := by omega
  have h1 : (seek_sample_fmt_normal s offset ms).1 = -1 := by
    simp only [seek_sample_fmt_normal, h0]
    rw [if_pos hne]
  have h3 : fseek_set (((offset / (s.adpcm.wSamplesPerBlock * s.adpcm_sample_frame_size)
      * s.wBlockAlign : Nat) : Int) + (s.data_starting_offset : Int)) = 0 := by
    unfold fseek_set
    rw [if_neg (show ¬ (((offset / (s.adpcm.wSamplesPerBlock * s.adpcm_sample_frame_size)
      * s.wBlockAlign : Nat) : Int) + (s.data_starting_offset : Int) < 0) by omega)]
  have hne2 : (0 : Int) ≠ ((offset / (s.adpcm.wSamplesPerBlock * s.adpcm_sample_frame_size)
      * s.wBlockAlign : Nat) : Int) + (s.data_starting_offset : Int) := by omega
  have h2 : (seek_sample_fmt_adpcm s offset ms).1 = 0 ∧
      (seek_sample_fmt_adpcm s offset ms).2.2 = true := by
    refine ⟨?_, ?_⟩ <;>
      (simp only [seek_sample_fmt_adpcm, h3]
       rw [if_neg (show ¬ ((0 : Int) = -1) by norm_num), if_pos hne2])
  exact ⟨h1, by rw [h1]; omega, h2.1, h2.2⟩

/-- Witness for C1 at a concretely opened uncompressed stream and
position 0. -/
theorem c1_witness :
    0 < wavPCM8_state.data_starting_offset ∧ (0 : Int) ≤ 0 ∧
    ((seek_sample_fmt_normal wavPCM8_state 0 0).1 = -1 ∧
     (seek_sample_fmt_normal wavPCM8_state 0 0).1 ≠ 0 ∧
     (seek_sample_fmt_adpcm wavPCM8_state 0 0).1 = 0 ∧
     (seek_sample_fmt_adpcm wavPCM8_state 0 0).2.2 = true) :=
  ⟨by decide, by decide, c1_seek_always_fails wavPCM8_state 0 0 (by decide) (by decide)⟩

lemma byteAt_lt (f : File) (i : Nat) : byteAt f i < 256 :=
  Nat.mod_lt _ (by norm_num)

lemma read_le32_lt (f : File) (p v : Nat) (h : read_le32 f p = some v) :
    v < 4294967296 := by
  unfold read_le32 at h
  split_ifs at h
  have h0 := byteAt_lt f p
  have h1 := byteAt_lt f (p + 1)
  have h2 := byteAt_lt f (p + 2)
  have h3 := byteAt_lt f (p + 3)
  injection h with h4
  omega

/-- C4, amended: when the chunk under the cursor does not match, the
scanner advances the cursor past the 8-byte header plus the declared size
exactly — with no even-boundary padding, so an odd declared size skips no
extra pad byte — and it fails rather than advancing when a declared size
is negative (high bit set in the 32-bit value). -/
theorem c4_find_chunk_advance (f : File) (id fuel pos idv szv : Nat)
    (hid : read_le32 f pos = some idv) (hsz : read_le32 f (pos + 4) = some szv)
    (hne : idv ≠ id) :
    (szv < 2147483648 →
      find_chunk f id (fuel + 1) pos =
        find_chunk f id fuel ((pos + 8 + szv) % 4294967296)) ∧
    (2147483648 ≤ szv → find_chunk f id (fuel + 1) pos = none) := by
  have hlt := read_le32_lt f (pos + 4) szv hsz
  constructor <;> intro hs
  · simp only [find_chunk, hid, hsz]
    rw [if_neg hne, if_neg (show ¬ (sint32ofBits szv < 0) by
      unfold sint32ofBits; rw [if_pos hs]; omega)]
  · simp only [find_chunk, hid, hsz]
    rw [if_neg hne, if_pos (show sint32ofBits szv < 0 by
      unfold sint32ofBits; rw [if_neg (by omega)]; omega)]

/-- C4 counterexample: on `oddChunkFile` the scanner of the code finds
the "data" chunk header at the unpadded offset 9 (it advanced exactly
8 + 1 bytes over the odd-sized first chunk), while the padded scanner
the claim describes misses it. -/
theorem c4_counterexample :
    find_chunk oddChunkFile dataID 20 0 = some (2, 17) ∧
    find_chunk_padded oddChunkFile dataID 20 0 = none ∧
    find_chunk oddChunkFile dataID 20 0 ≠ find_chunk_padded oddChunkFile dataID 20 0 := by
  decide

/-- Witness for C4: one scan step over the odd-sized chunk of
`oddChunkFile` lands 9 bytes further, not 10. -/
theorem c4_witness :
    read_le32 oddChunkFile 0 = some 0x41414141 ∧
    read_le32 oddChunkFile 4 = some 1 ∧
    (0x41414141 : Nat) ≠ dataID ∧ (1 : Nat) < 2147483648 ∧
    find_chunk oddChunkFile dataID (19 + 1) 0 =
      find_chunk oddChunkFile dataID 19 ((0 + 8 + 1) % 4294967296) :=
  ⟨by decide, by decide, by decide, by decide,
   (c4_find_chunk_advance oddChunkFile dataID 19 0 0x41414141 1
     (by decide) (by decide) (by decide)).1 (by decide)⟩

lemma read_le32_le (f : File) (p v : Nat) (h : read_le32 f p = some v) :
    p + 4 ≤ f.length := by
  unfold read_le32 at h
  split_ifs at h with hc
  exact hc

/-- C9: a file that does not begin with the RIFF magic, or whose form
type dword at offset 8 is not WAVE (including files too short to hold
one), opens as the soft `OPEN_NO_MATCH` and never `OPEN_MATCH_BUT_FAIL`;
and a correctly-tagged RIFF/WAVE file whose format chunk parses with a
supported compression tag, a channel count passing the assertion and 24
bits per sample opens as `OPEN_MATCH_BUT_FAIL`. -/
theorem c9_open_taxonomy :
    (∀ f : File, (read_le32 f 0 ≠ some riffID ∨ read_le32 f 8 ≠ some waveID) →
      WAV_open_internal f = some (OpenResult.OPEN_NO_MATCH, none)) ∧
    (∀ (f : File) (sz : Int) (p : Nat) (fmt : FmtT) (ext : Option AdpcmExtT) (p2 : Nat),
      read_le32 f 0 = some riffID → read_le32 f 8 = some waveID →
      find_chunk f fmtID (f.length + 1) 12 = some (sz, p) →
      read_fmt_chunk f p = some (fmt, ext, p2) →
      fmt.wChannels % 256 ≤ 2 →
      (fmt.wFormatTag = FMT_NORMAL ∨ fmt.wFormatTag = FMT_ADPCM) →
      fmt.wBitsPerSample = 24 →
      WAV_open_internal f = some (OpenResult.OPEN_MATCH_BUT_FAIL, none)) := by
  constructor
  · intro f h
    unfold WAV_open_internal
    rcases hr0 : read_le32 f 0 with _ | m1
    · simp only [hr0]
    · simp only [hr0]
      by_cases hm1 : m1 = riffID
      · subst hm1
        rw [if_neg (show ¬ (riffID ≠ riffID) by simp)]
        have h8 : read_le32 f 8 ≠ some waveID := by
          rcases h with h | h
          · exact absurd hr0 h
          · exact h
        by_cases h8len : 8 ≤ f.length
        · rw [if_pos h8len]
          rcases hr8 : read_le32 f 8 with _ | m2
          · simp only [hr8]
          · simp only [hr8]
            have hm2 : m2 ≠ waveID := fun he => h8 (he ▸ hr8)
            rw [if_pos hm2]
        · rw [if_neg h8len]
          have hend : read_le32 f f.length = none := by
            unfold read_le32
            rw [if_neg (by omega)]
          simp only [hend]
      · rw [if_pos hm1]
  · intro f sz p fmt ext p2 h0 h8 hfc hfmt hch htag hbits
    have hlen : 12 ≤ f.length := read_le32_le f 8 waveID h8
    unfold WAV_open_internal
    simp only [h0]
    rw [if_neg (show ¬ (riffID ≠ riffID) by simp)]
    rw [if_pos (show 8 ≤ f.length by omega)]
    simp only [h8]
    rw [if_neg (show ¬ (waveID ≠ waveID) by simp)]
    simp only [Nat.reduceAdd, hfc, hfmt]
    rw [if_neg (show ¬ (2 < fmt.wChannels % 256) by omega)]
    rw [if_neg (show ¬ (fmt.wFormatTag ≠ FMT_NORMAL ∧ fmt.wFormatTag ≠ FMT_ADPCM) by tauto)]
    rw [hbits]
    norm_num [FMT_ADPCM]

/-- Witness for C9: a three-byte file with the wrong magic opens as
`OPEN_NO_MATCH`; `wavBits24` (a well-formed WAVE with 24 bits per
sample) opens as `OPEN_MATCH_BUT_FAIL`. -/
theorem c9_witness :
    (WAV_open_internal [1, 2, 3] = some (OpenResult.OPEN_NO_MATCH, none)) ∧
    (read_le32 wavBits24 0 = some riffID ∧ read_le32 wavBits24 8 = some waveID ∧
     find_chunk wavBits24 fmtID (wavBits24.length + 1) 12 = some (16, 20) ∧
     read_fmt_chunk wavBits24 20 = some (fmt24, none, 36) ∧
     fmt24.wChannels % 256 ≤ 2 ∧ fmt24.wFormatTag = FMT_NORMAL ∧
     fmt24.wBitsPerSample = 24 ∧
     WAV_open_internal wavBits24 = some (OpenResult.OPEN_MATCH_BUT_FAIL, none)) :=
  ⟨c9_open_taxonomy.1 [1, 2, 3] (Or.inl (by decide)),
   by decide, by decide, by decide, by decide, by decide, by decide, by decide,
   c9_open_taxonomy.2 wavBits24 16 20 fmt24 none 36 (by decide) (by decide)
     (by decide) (by decide) (by decide) (Or.inl (by decide)) (by decide)⟩

/-- C3, amended: a well-formed RIFF/WAVE whose format chunk parses but
carries a compression tag other than the two supported values opens with
the soft `OPEN_NO_MATCH` outcome, not `OPEN_MATCH_BUT_FAIL` — the code
deliberately lets another decoder try (the data may be MP3 inside a WAV
container). -/
theorem c3_unsupported_tag_is_soft_nomatch (f : File) (sz : Int) (p : Nat)
    (fmt : FmtT) (ext : Option AdpcmExtT) (p2 : Nat)
    (h0 : read_le32 f 0 = some riffID) (h8 : read_le32 f 8 = some waveID)
    (hfc : find_chunk f fmtID (f.length + 1) 12 = some (sz, p))
    (hfmt : read_fmt_chunk f p = some (fmt, ext, p2))
    (hch : fmt.wChannels % 256 ≤ 2)
    (htag : fmt.wFormatTag ≠ FMT_NORMAL ∧ fmt.wFormatTag ≠ FMT_ADPCM) :
    WAV_open_internal f = some (OpenResult.OPEN_NO_MATCH, none) := by
  have hlen : 12 ≤ f.length := read_le32_le f 8 waveID h8
  unfold WAV_open_internal
  simp only [h0]
  rw [if_neg (show ¬ (riffID ≠ riffID) by simp)]
  rw [if_pos (show 8 ≤ f.length by omega)]
  simp only [h8]
  rw [if_neg (show ¬ (waveID ≠ waveID) by simp)]
  simp only [Nat.reduceAdd, hfc, hfmt]
  rw [if_neg (show ¬ (2 < fmt.wChannels % 256) by omega)]
  rw [if_pos htag]

/-- C3 counterexample: `wavTag85` is a valid RIFF/WAVE container whose
format chunk carries tag 85 (MP3); the claim says the open fails hard
with `OPEN_MATCH_BUT_FAIL`, but it returns `OPEN_NO_MATCH`. -/
theorem c3_counterexample :
    WAV_open_internal wavTag85 = some (OpenResult.OPEN_NO_MATCH, none) ∧
    WAV_open_internal wavTag85 ≠ some (OpenResult.OPEN_MATCH_BUT_FAIL, none) := by
  decide

/-- Witness for C3 at `wavTag85`. -/
theorem c3_witness :
    (read_le32 wavTag85 0 = some riffID ∧ read_le32 wavTag85 8 = some waveID ∧
     find_chunk wavTag85 fmtID (wavTag85.length + 1) 12 = some (16, 20) ∧
     read_fmt_chunk wavTag85 20 = some (fmt85, none, 36) ∧
     fmt85.wChannels % 256 ≤ 2 ∧ fmt85.wFormatTag ≠ FMT_NORMAL ∧
     fmt85.wFormatTag ≠ FMT_ADPCM) ∧
    WAV_open_internal wavTag85 = some (OpenResult.OPEN_NO_MATCH, none) :=
  ⟨⟨by decide, by decide, by decide, by decide, by decide, by decide, by decide⟩,
   c3_unsupported_tag_is_soft_nomatch wavTag85 16 20 fmt85 none 36
     (by decide) (by decide) (by decide) (by decide) (by decide)
     ⟨by decide, by decide⟩⟩

lemma read_sample_fmt_normal_spec (f : File) (pos k : Nat) :
    (read_sample_fmt_normal f pos k).1.length = min k (f.length - pos) ∧
    (read_sample_fmt_normal f pos k).2 = pos + min k (f.length - pos) := by
  unfold read_sample_fmt_normal
  refine ⟨?_, rfl⟩
  simp [List.length_take, List.length_drop]

/-- C7: on an uncompressed mono 8-bit stream, a read that consumed N raw
data bytes writes exactly 4N output bytes (widening doubles the count and
mono duplication doubles it again); on an uncompressed stereo 16-bit
stream a read that consumed N raw bytes writes exactly N output bytes. -/
theorem c7_read_byte_counts (s : Wav) (len : Nat)
    (hmod : len % s.Input_Buffer_Ratio = 0) (htag : s.wFormatTag = FMT_NORMAL) :
    (s.Conversion = Conv.CONV_8BIT_TO_16BIT → s.Channels = 1 →
      ∀ out s2, Read s len = some (out, s2) →
        out.length = 4 * (s2.pos - s.pos)) ∧
    (s.Conversion = Conv.CONV_16LSB_TO_16SYS → s.Channels = 2 →
      ∀ out s2, Read s len = some (out, s2) →
        out.length = s2.pos - s.pos) := by
  have hr1 := (read_sample_fmt_normal_spec s.f s.pos (len / s.Input_Buffer_Ratio)).1
  have hr2 := (read_sample_fmt_normal_spec s.f s.pos (len / s.Input_Buffer_Ratio)).2
  constructor <;> intro hconv hch out s2 hread <;>
    (unfold Read at hread
     rw [if_neg (show ¬ (len % s.Input_Buffer_Ratio ≠ 0) by simp [hmod]),
         if_pos htag] at hread
     simp only [Option.some.injEq, Prod.mk.injEq] at hread
     obtain ⟨h1, h2⟩ := hread
     subst h1
     subst h2)
  · unfold convertStage
    rw [if_pos hch, if_pos hconv, monoDup_length, flatMap_widenBytes_length]
    dsimp only
    omega
  · unfold convertStage
    rw [if_neg (show ¬ (s.Channels = 1) by rw [hch]; norm_num),
        if_neg (show ¬ (s.Conversion = Conv.CONV_8BIT_TO_16BIT) by
          rw [hconv]; exact fun hc => Conv.noConfusion hc)]
    dsimp only
    omega

/-- Witness for C7 at a concrete opened mono 8-bit stream with one raw
byte available: the single consumed byte becomes 4 output bytes. -/
theorem c7_witness :
    8 % wavPCM8tiny_state.Input_Buffer_Ratio = 0 ∧
    wavPCM8tiny_state.wFormatTag = FMT_NORMAL ∧
    wavPCM8tiny_state.Conversion = Conv.CONV_8BIT_TO_16BIT ∧
    wavPCM8tiny_state.Channels = 1 ∧
    Read wavPCM8tiny_state 8 =
      some ([0, 137, 0, 137], { wavPCM8tiny_state with pos := 45 }) ∧
    ([0, 137, 0, 137] : List Nat).length =
      4 * (({ wavPCM8tiny_state with pos := 45 } : Wav).pos - wavPCM8tiny_state.pos) :=
  ⟨by decide, by decide, by decide, by decide, by decide,
   (c7_read_byte_counts wavPCM8tiny_state 8 (by decide) (by decide)).1
     (by decide) (by decide) [0, 137, 0, 137]
     { wavPCM8tiny_state with pos := 45 } (by decide)⟩

/-- C10, amended: every opened stream has
`Input_Buffer_Ratio = (widening active ? 2 : 1) * (mono ? 2 : 1)`, a
value in {1, 2, 4}; when `len` is a multiple of it the entry assertion of
`Read` never fires (and neither does the `ASSERT(0)` of the dispatch);
the underlying reader is asked for `len / Input_Buffer_Ratio` raw bytes,
and on the uncompressed path the raw bytes actually consumed are
`min (len / Input_Buffer_Ratio) (bytes remaining)` — equal to
`len / Input_Buffer_Ratio` only when enough data remains. -/
theorem c10_ratio_and_consumption :
    (∀ (f : File) (r : OpenResult) (st : Wav),
      WAV_open_internal f = some (r, some st) →
      st.Input_Buffer_Ratio =
        (if st.Conversion = Conv.CONV_8BIT_TO_16BIT then 2 else 1) *
        (if st.Channels = 1 then 2 else 1) ∧
      (st.Input_Buffer_Ratio = 1 ∨ st.Input_Buffer_Ratio = 2 ∨
       st.Input_Buffer_Ratio = 4) ∧
      (st.wFormatTag = FMT_NORMAL ∨ st.wFormatTag = FMT_ADPCM) ∧
      ∀ len, len % st.Input_Buffer_Ratio = 0 → (Read st len).isSome) ∧
    (∀ (s : Wav) (len : Nat), len % s.Input_Buffer_Ratio = 0 →
      s.wFormatTag = FMT_NORMAL →
      ∀ out s2, Read s len = some (out, s2) →
        s2.pos = s.pos + min (len / s.Input_Buffer_Ratio) (s.f.length - s.pos)) := by
  constructor
  · intro f r st h
    unfold WAV_open_internal at h
    rcases h0 : read_le32 f 0 with _ | m1 <;> simp only [h0] at h
    · simp at h
    by_cases hm1 : m1 = riffID
    · subst hm1
      rw [if_neg (show ¬ (riffID ≠ riffID) by simp)] at h
      by_cases hl : 8 ≤ f.length
      · rw [if_pos hl] at h
        rcases h8 : read_le32 f 8 with _ | m2 <;> simp only [h8] at h
        · simp at h
        by_cases hm2 : m2 = waveID
        · subst hm2
          rw [if_neg (show ¬ (waveID ≠ waveID) by simp)] at h
          rcases hfc : find_chunk f fmtID (f.length + 1) (8 + 4) with _ | ⟨sz, p⟩ <;>
            simp only [hfc] at h
          · simp at h
          rcases hfm : read_fmt_chunk f p with _ | ⟨fmt, ext, p2⟩ <;>
            simp only [hfm] at h
          · simp at h
          by_cases hch : 2 < fmt.wChannels % 256
          · rw [if_pos hch] at h
            simp at h
          rw [if_neg hch] at h
          by_cases htag : fmt.wFormatTag ≠ FMT_NORMAL ∧ fmt.wFormatTag ≠ FMT_ADPCM
          · rw [if_pos htag] at h
            simp at h
          rw [if_neg htag] at h
          rcases hcv : (if fmt.wBitsPerSample = 4 ∧ fmt.wFormatTag = FMT_ADPCM then
              some (Conv.CONV_NONE, 2)
            else if fmt.wBitsPerSample = 8 then some (Conv.CONV_8BIT_TO_16BIT, 1)
            else if fmt.wBitsPerSample = 16 then some (Conv.CONV_16LSB_TO_16SYS, 2)
            else none : Option (Conv × Nat)) with _ | ⟨conv, bps⟩ <;>
            simp only [hcv] at h
          · simp at h
          rcases hdc : find_chunk f dataID (f.length + 1)
              (if sz + (p : Int) < 0 then p2 else (sz + (p : Int)).toNat) with
              _ | ⟨dsz, dataPos⟩ <;> simp only [hdc] at h
          · simp at h
          simp only [Option.some.injEq, Prod.mk.injEq] at h
          obtain ⟨hr1, hst⟩ := h
          subst hst
          refine ⟨rfl, ?_, ?_, ?_⟩
          · dsimp only
            split_ifs <;> norm_num
          · dsimp only
            tauto
          · intro len hlen
            dsimp only at hlen ⊢
            unfold Read
            dsimp only
            rw [if_neg (show ¬ (len % ((if conv = Conv.CONV_8BIT_TO_16BIT then 2 else 1) *
                if fmt.wChannels % 256 = 1 then 2 else 1) ≠ 0) from fun hne => hne hlen)]
            rcases (show fmt.wFormatTag = FMT_NORMAL ∨ fmt.wFormatTag = FMT_ADPCM by
                tauto) with h1 | h1
            · rw [if_pos h1]
              rfl
            · rw [if_neg (show ¬ (fmt.wFormatTag = FMT_NORMAL) by rw [h1]; decide),
                  if_pos h1]
              rfl
        · rw [if_pos hm2] at h
          simp at h
      · rw [if_neg hl] at h
        have hend : read_le32 f f.length = none := by
          unfold read_le32
          rw [if_neg (by omega)]
        simp only [hend] at h
        simp at h
    · rw [if_pos hm1] at h
      simp at h
  · intro s len hmod htag out s2 hread
    have hr2 := (read_sample_fmt_normal_spec s.f s.pos (len / s.Input_Buffer_Ratio)).2
    unfold Read at hread
    rw [if_neg (show ¬ (len % s.Input_Buffer_Ratio ≠ 0) by simp [hmod]),
        if_pos htag] at hread
    simp only [Option.some.injEq, Prod.mk.injEq] at hread
    obtain ⟨h1, h2⟩ := hread
    subst h2
    exact hr2

/-- C10 counterexample: on the opened stream of `wavPCM8tiny` only one
raw data byte remains; a read with `len = 8` (ratio 4) consumes 1 raw
byte, not `len / ratio = 2`. -/
theorem c10_counterexample :
    WAV_open_internal wavPCM8tiny = some (OpenResult.OPEN_OK, some wavPCM8tiny_state) ∧
    (8 : Nat) % wavPCM8tiny_state.Input_Buffer_Ratio = 0 ∧
    8 / wavPCM8tiny_state.Input_Buffer_Ratio = 2 ∧
    Read wavPCM8tiny_state 8 =
      some ([0, 137, 0, 137], { wavPCM8tiny_state with pos := 45 }) ∧
    ({ wavPCM8tiny_state with pos := 45 } : Wav).pos - wavPCM8tiny_state.pos = 1 ∧
    (1 : Nat) ≠ 2 := by
  decide

/-- Witness for C10: the ratio facts at the opened `wavPCM8` stream, and
the consumption formula at the opened `wavPCM8tiny` stream. -/
theorem c10_witness :
    (WAV_open_internal wavPCM8 = some (OpenResult.OPEN_OK, some wavPCM8_state) ∧
     wavPCM8_state.Input_Buffer_Ratio =
       (if wavPCM8_state.Conversion = Conv.CONV_8BIT_TO_16BIT then 2 else 1) *
       (if wavPCM8_state.Channels = 1 then 2 else 1) ∧
     (wavPCM8_state.Input_Buffer_Ratio = 1 ∨ wavPCM8_state.Input_Buffer_Ratio = 2 ∨
      wavPCM8_state.Input_Buffer_Ratio = 4) ∧
     (wavPCM8_state.wFormatTag = FMT_NORMAL ∨ wavPCM8_state.wFormatTag = FMT_ADPCM) ∧
     (8 : Nat) % wavPCM8_state.Input_Buffer_Ratio = 0 ∧
     (Read wavPCM8_state 8).isSome) ∧
    ({ wavPCM8tiny_state with pos := 45 } : Wav).pos =
      wavPCM8tiny_state.pos + min (8 / wavPCM8tiny_state.Input_Buffer_Ratio)
        (wavPCM8tiny_state.f.length - wavPCM8tiny_state.pos) :=
  ⟨⟨by decide,
    (c10_ratio_and_consumption.1 wavPCM8 OpenResult.OPEN_OK wavPCM8_state (by decide)).1,
    (c10_ratio_and_consumption.1 wavPCM8 OpenResult.OPEN_OK wavPCM8_state (by decide)).2.1,
    (c10_ratio_and_consumption.1 wavPCM8 OpenResult.OPEN_OK wavPCM8_state (by decide)).2.2.1,
    by decide,
    (c10_ratio_and_consumption.1 wavPCM8 OpenResult.OPEN_OK wavPCM8_state
      (by decide)).2.2.2 8 (by decide)⟩,
   c10_ratio_and_consumption.2 wavPCM8tiny_state 8 (by decide) (by decide)
     [0, 137, 0, 137] { wavPCM8tiny_state with pos := 45 } (by decide)⟩
